import Mathlib

/-!
Verification of the voice-entry classifier `processEntries`.

The source is a single pure TypeScript function that, given an ordered
sequence of voice entries, produces tag-frequency counts, a list of
detected "idea" records, and a summary string.  We embed it shallowly:

* strings are Lean `String`s (a list of characters); the JavaScript
  `toLowerCase` is modelled per character by `Char.toLower`, and each
  regular expression in the source is an alternation of literal
  substrings, modelled as "some pattern of the list occurs as a
  substring";
* the numeric emotion score (`number | null`) is modelled as
  `Option ℚ`, with the thresholds 0.3 and -0.1 as exact rationals;
* the `Record<string, number>` of tag frequencies is modelled as an
  association list updated exactly as the object of the source is (increment
  in place when the key exists, append the key at count 1 otherwise),
  read through `lookupTag`;
* the external `VoiceEntry` type has further fields (id, user id, model
  tags, embedding, ...) that the classifier never reads; they are
  collapsed into the single unread field `other_fields`.
-/

/-- Input record. Only `transcript_user`, `tags_user` and
`emotion_score_score` are read by the classifier; `other_fields` stands
for the remaining fields of the external type, which it never reads. -/
structure VoiceEntry where
  transcript_user : String
  tags_user : List String
  emotion_score_score : Option ℚ
  other_fields : String
  deriving Repr, DecidableEq

/-- Output record pushed onto `ideas` for each matching entry. -/
structure IdeaRecord where
  task_text : String
  status : String
  category : String
  due_date : Option String
  origin_type : String
  tone : String
  refinement_level : String
  belief_level : String
  deriving Repr, DecidableEq

/-- Result shape of `processEntries`. -/
structure ProcessedResult where
  summary : String
  tagFrequencies : List (String × Nat)
  ideas : List IdeaRecord
  deriving Repr, DecidableEq

/-- Boolean test that the first character list begins the second. -/
def charsPre : List Char → List Char → Bool
  | [], _ => true
  | _ :: _, [] => false
  | a :: as, b :: bs => a == b && charsPre as bs

/-- Boolean test that `pat` occurs as a contiguous run inside the list. -/
def charsContain (pat : List Char) : List Char → Bool
  | [] => pat.isEmpty
  | b :: bs => charsPre pat (b :: bs) || charsContain pat bs

/-- String containment: `pat` occurs as a substring of `s`. -/
def containsSub (s pat : String) : Bool := charsContain pat.toList s.toList

/-- Character-wise lower casing, the model of `toLowerCase()`. -/
def lowerStr (s : String) : String := ⟨s.data.map Char.toLower⟩

/-- Model of an alternation regex test `/(p1|p2|...)/.test(text)`:
some pattern of the list occurs as a substring of `text`. -/
def matchesAny (text : String) (pats : List String) : Bool :=
  pats.any (fun p => containsSub text p)

/-- Verb alternatives of the `hasIdeaVerbs` regex (source line 34). -/
def ideaVerbs : List String :=
  ["build", "create", "start", "try", "make", "develop", "design", "launch"]

/-- Phrase alternatives of the `hasIdeaPhrases` regex (source line 35). -/
def ideaPhrases : List String :=
  ["just thought of", "what if", "idea for", "thinking about",
   "occurred to me", "imagine if", "how about"]

/-- Alternatives of the `hasFutureIntent` regex (source line 36). -/
def futureIntents : List String :=
  ["going to", "plan to", "want to", "would like to", "intend to"]

/-- Lower-cased transcript, `const text = e.transcript_user.toLowerCase()`. -/
def entryText (e : VoiceEntry) : String := lowerStr e.transcript_user

/-- Verb trigger on the lower-cased transcript. -/
def hasIdeaVerbs (text : String) : Bool := matchesAny text ideaVerbs

/-- Phrase trigger on the lower-cased transcript. -/
def hasIdeaPhrases (text : String) : Bool := matchesAny text ideaPhrases

/-- Future-intent trigger on the lower-cased transcript. -/
def hasFutureIntent (text : String) : Bool := matchesAny text futureIntents

/-- Guard of the `if` at source line 38: an entry enters the idea list
iff at least one of the three triggers fires. -/
def entryTrigger (e : VoiceEntry) : Bool :=
  hasIdeaVerbs (entryText e) || hasIdeaPhrases (entryText e)
    || hasFutureIntent (entryText e)

/-- Status cascade, source lines 43-48. -/
def statusOf (text : String) : String :=
  if matchesAny text ["already started", "in progress", "working on"] then "in progress"
  else if matchesAny text ["finished", "completed", "done"] then "completed"
  else "new"

/-- Category cascade, source lines 51-61. -/
def categoryOf (text : String) : String :=
  if matchesAny text ["health", "exercise", "workout", "diet"] then "health"
  else if matchesAny text ["learn", "study", "course", "read"] then "learning"
  else if matchesAny text ["work", "job", "career", "business"] then "work"
  else if matchesAny text ["personal", "life", "relationship"] then "personal"
  else "general"

/-- Due-date cascade, source lines 64-71. -/
def dueDateOf (text : String) : Option String :=
  if containsSub text "tomorrow" then some "tomorrow"
  else if containsSub text "next week" then some "next week"
  else if containsSub text "this weekend" then some "this weekend"
  else none

/-- Tone from the emotion score, source lines 77-84. -/
def toneOf : Option ℚ → String
  | none => "neutral"
  | some s => if s > 3/10 then "positive" else if s < -(1/10) then "negative" else "neutral"

/-- Refinement-level cascade, source lines 87-92. -/
def refinementOf (text : String) : String :=
  if matchesAny text ["detailed plan", "steps to", "process for"] then "detailed"
  else if matchesAny text ["thinking about", "considering"] then "conceptual"
  else "initial"

/-- Belief-level cascade, source lines 95-100. -/
def beliefOf (text : String) : String :=
  if matchesAny text ["definitely", "absolutely", "must", "will"] then "high"
  else if matchesAny text ["maybe", "perhaps", "might", "could"] then "low"
  else "medium"

/-- Record pushed at source lines 102-111 for a triggered entry. -/
def ideaOf (e : VoiceEntry) : IdeaRecord :=
  { task_text := e.transcript_user
    status := statusOf (entryText e)
    category := categoryOf (entryText e)
    due_date := dueDateOf (entryText e)
    origin_type := if hasIdeaPhrases (entryText e) then "spontaneous" else "planned"
    tone := toneOf e.emotion_score_score
    refinement_level := refinementOf (entryText e)
    belief_level := beliefOf (entryText e) }

/-- Body of the `if (hasIdeaVerbs || hasIdeaPhrases || hasFutureIntent)`
branch: `some` record for a triggered entry, `none` otherwise. -/
def classifyEntry (e : VoiceEntry) : Option IdeaRecord :=
  if entryTrigger e then some (ideaOf e) else none

/-- One step of `tagFrequencies[tag] = (tagFrequencies[tag] || 0) + 1`
on the association-list model of the object: increment the existing key
in place, or append the key at count 1. -/
def bumpTag : List (String × Nat) → String → List (String × Nat)
  | [], t => [(t, 1)]
  | (k, v) :: rest, t =>
      if k = t then (k, v + 1) :: rest else (k, v) :: bumpTag rest t

/-- Tag loop of source lines 26-28 for one entry. -/
def countTags (m : List (String × Nat)) (tags : List String) : List (String × Nat) :=
  tags.foldl bumpTag m

/-- Object read `tagFrequencies[tag]`, with 0 for an absent key. -/
def lookupTag : List (String × Nat) → String → Nat
  | [], _ => 0
  | (k, v) :: rest, t => if k = t then v else lookupTag rest t

/-- Keys of the association list, i.e. of the frequency object. -/
def keysOf (m : List (String × Nat)) : List String := m.map Prod.fst

/-- Body of the `for (const e of entries)` loop: count the tags of the entry,
then push an idea record when the trigger fires. -/
def stepEntry (acc : List (String × Nat) × List IdeaRecord) (e : VoiceEntry) :
    List (String × Nat) × List IdeaRecord :=
  let tf := countTags acc.1 e.tags_user
  match classifyEntry e with
  | some r => (tf, acc.2 ++ [r])
  | none => (tf, acc.2)

/-- The classifier, source lines 10-120. -/
def processEntries (entries : List VoiceEntry) : ProcessedResult :=
  let res := entries.foldl stepEntry ([], [])
  { summary := "Analysis of " ++ toString entries.length ++ " entries found "
      ++ toString res.2.length ++ " potential ideas"
    tagFrequencies := res.1
    ideas := res.2 }

/-- All tag occurrences of the input, in order. -/
def joinTags (es : List VoiceEntry) : List String :=
  (es.map VoiceEntry.tags_user).flatten

/-- Number of occurrences of `t` in a list of tags. -/
def occCount (t : String) : List String → Nat
  | [] => 0
  | s :: rest => (if s = t then 1 else 0) + occCount t rest

/-! ### Shared structural lemmas -/

lemma stepEntry_fst (acc : List (String × Nat) × List IdeaRecord) (e : VoiceEntry) :
    (stepEntry acc e).1 = countTags acc.1 e.tags_user := by
  unfold stepEntry
  cases classifyEntry e <;> rfl

lemma foldl_stepEntry_snd (es : List VoiceEntry) :
    ∀ acc, (es.foldl stepEntry acc).2
      = acc.2 ++ (es.filter (fun e => entryTrigger e)).map ideaOf := by
  induction es with
  | nil => intro acc; simp
  | cons e rest ih =>
      intro acc
      rw [List.foldl_cons, ih]
      cases h : entryTrigger e
      · simp [stepEntry, classifyEntry, h, List.filter_cons]
      · simp [stepEntry, classifyEntry, h, List.filter_cons]

lemma foldl_stepEntry_fst (es : List VoiceEntry) :
    ∀ acc, (es.foldl stepEntry acc).1
      = es.foldl (fun m e => countTags m e.tags_user) acc.1 := by
  induction es with
  | nil => intro acc; rfl
  | cons e rest ih =>
      intro acc
      rw [List.foldl_cons, ih, List.foldl_cons, stepEntry_fst]

lemma ideas_spec (es : List VoiceEntry) :
    (processEntries es).ideas = (es.filter (fun e => entryTrigger e)).map ideaOf := by
  show (es.foldl stepEntry ([], [])).2 = _
  rw [foldl_stepEntry_snd]
  rfl

lemma tagFreq_spec (es : List VoiceEntry) :
    (processEntries es).tagFrequencies
      = es.foldl (fun m e => countTags m e.tags_user) [] := by
  show (es.foldl stepEntry ([], [])).1 = _
  rw [foldl_stepEntry_fst]

lemma lookup_bump (m : List (String × Nat)) (t u : String) :
    lookupTag (bumpTag m t) u = lookupTag m u + (if t = u then 1 else 0) := by
  induction m with
  | nil =>
      simp [bumpTag, lookupTag]
  | cons kv rest ih =>
      obtain ⟨k, v⟩ := kv
      by_cases hk : k = t <;> by_cases hu : k = u
      · have htu : t = u := by rw [← hk]; exact hu
        simp [bumpTag, lookupTag, hk, hu, htu]
      · have htu : ¬t = u := by rw [← hk]; exact hu
        simp [bumpTag, lookupTag, hk, hu, htu]
      · have htu : ¬t = u := fun h => hk (hu.trans h.symm)
        have hut : ¬u = t := fun h => hk (hu.trans h)
        simp [bumpTag, lookupTag, hk, hu, htu, hut]
      · simp [bumpTag, lookupTag, hk, hu, ih]

lemma keys_bump (m : List (String × Nat)) (t u : String) :
    u ∈ keysOf (bumpTag m t) ↔ u ∈ keysOf m ∨ u = t := by
  induction m with
  | nil => simp [bumpTag, keysOf]
  | cons kv rest ih =>
      obtain ⟨k, v⟩ := kv
      simp only [bumpTag]
      split_ifs with hk
      · subst hk
        simp [keysOf]
        tauto
      · simp [keysOf] at ih ⊢
        tauto

lemma lookup_countTags (tags : List String) :
    ∀ (m : List (String × Nat)) (u : String),
      lookupTag (countTags m tags) u = lookupTag m u + occCount u tags := by
  induction tags with
  | nil => intro m u; simp [countTags, occCount]
  | cons s rest ih =>
      intro m u
      show lookupTag (countTags (bumpTag m s) rest) u = _
      rw [ih, lookup_bump]
      simp only [occCount]
      omega

lemma keys_countTags (tags : List String) :
    ∀ (m : List (String × Nat)) (u : String),
      u ∈ keysOf (countTags m tags) ↔ u ∈ keysOf m ∨ u ∈ tags := by
  induction tags with
  | nil => intro m u; simp [countTags]
  | cons s rest ih =>
      intro m u
      show u ∈ keysOf (countTags (bumpTag m s) rest) ↔ _
      rw [ih, keys_bump]
      simp
      tauto

lemma occCount_append (t : String) (l₁ l₂ : List String) :
    occCount t (l₁ ++ l₂) = occCount t l₁ + occCount t l₂ := by
  induction l₁ with
  | nil => simp [occCount]
  | cons s rest ih => simp [occCount, ih]; omega

lemma lookup_foldTags (es : List VoiceEntry) :
    ∀ (m : List (String × Nat)) (u : String),
      lookupTag (es.foldl (fun m e => countTags m e.tags_user) m) u
        = lookupTag m u + occCount u (joinTags es) := by
  induction es with
  | nil => intro m u; simp [joinTags, occCount]
  | cons e rest ih =>
      intro m u
      rw [List.foldl_cons, ih, lookup_countTags]
      have : joinTags (e :: rest) = e.tags_user ++ joinTags rest := by
        simp [joinTags]
      rw [this, occCount_append]
      omega

lemma keys_foldTags (es : List VoiceEntry) :
    ∀ (m : List (String × Nat)) (u : String),
      u ∈ keysOf (es.foldl (fun m e => countTags m e.tags_user) m)
        ↔ u ∈ keysOf m ∨ u ∈ joinTags es := by
  induction es with
  | nil => intro m u; simp [joinTags]
  | cons e rest ih =>
      intro m u
      rw [List.foldl_cons, ih, keys_countTags]
      have : joinTags (e :: rest) = e.tags_user ++ joinTags rest := by
        simp [joinTags]
      rw [this]
      simp
      tauto

lemma occCount_perm (t : String) {l₁ l₂ : List String} (h : l₁.Perm l₂) :
    occCount t l₁ = occCount t l₂ := by
  induction h with
  | nil => rfl
  | cons x _ ih => simp [occCount, ih]
  | swap x y l => simp [occCount]; omega
  | trans _ _ ih₁ ih₂ => omega

lemma joinTags_perm {es₁ es₂ : List VoiceEntry} (h : es₁.Perm es₂) :
    (joinTags es₁).Perm (joinTags es₂) :=
  (h.map VoiceEntry.tags_user).flatten

lemma lookup_process (es : List VoiceEntry) (u : String) :
    lookupTag (processEntries es).tagFrequencies u = occCount u (joinTags es) := by
  rw [tagFreq_spec, lookup_foldTags]
  simp [lookupTag]

lemma keys_process (es : List VoiceEntry) (u : String) :
    u ∈ keysOf (processEntries es).tagFrequencies ↔ u ∈ joinTags es := by
  rw [tagFreq_spec, keys_foldTags]
  simp [keysOf]

/-! ### Example entries used in claim statements and witnesses -/

/-- Entry with a verb and a future-intent trigger but no phrase trigger. -/
def exPlanned : VoiceEntry := ⟨"I want to build a new app", [], none, ""⟩

/-- Entry with a phrase trigger. -/
def exSpont : VoiceEntry := ⟨"I just thought of a great solution", [], none, ""⟩

/-- Entry matching both a learning and a work category keyword. -/
def exLearn : VoiceEntry := ⟨"I want to learn how to code for my job", [], none, ""⟩

/-- First tag-counting example entry. -/
def exTagA : VoiceEntry := ⟨"", ["work", "important"], none, ""⟩

/-- Second tag-counting example entry. -/
def exTagB : VoiceEntry := ⟨"", ["personal", "work"], none, ""⟩

/-- Entry containing both "thinking about" and the higher-priority
refinement keyword "steps to". -/
def exC10 : VoiceEntry := ⟨"Thinking about the steps to launch a podcast", [], none, ""⟩

/-- Entry containing "thinking about" and no detailed-refinement keyword. -/
def exC10b : VoiceEntry := ⟨"Thinking about a vegetable garden", [], none, ""⟩

/-! ### Claims -/

/-- Claim C1: an entry contributes an idea record to the output list if
and only if at least one of the three triggers (verb, phrase,
future-intent) fires on its lower-cased transcript, and entries with no
firing trigger produce no record at all: the ideas list is exactly the
image of the trigger-filtered input, in order. -/
theorem claim_C1 (es : List VoiceEntry) :
    (processEntries es).ideas =
      (es.filter (fun e =>
        matchesAny (lowerStr e.transcript_user) ideaVerbs
          || matchesAny (lowerStr e.transcript_user) ideaPhrases
          || matchesAny (lowerStr e.transcript_user) futureIntents)).map ideaOf :=
  ideas_spec es

/-- Claim C3: the summary string is exactly
"Analysis of \x7bN\x7d entries found \x7bM\x7d potential ideas" with N the input
count and M the idea count, and the empty input yields the empty tag
map, the empty idea list, and a summary containing "0 potential ideas". -/
theorem claim_C3 (es : List VoiceEntry) :
    (processEntries es).summary
      = "Analysis of " ++ toString es.length ++ " entries found "
          ++ toString (processEntries es).ideas.length ++ " potential ideas"
  ∧ (processEntries ([] : List VoiceEntry)).tagFrequencies = []
  ∧ (processEntries ([] : List VoiceEntry)).ideas = []
  ∧ (processEntries ([] : List VoiceEntry)).summary
      = "Analysis of 0 entries found 0 potential ideas"
  ∧ containsSub (processEntries ([] : List VoiceEntry)).summary "0 potential ideas" = true :=
  ⟨rfl, by decide, by decide, by decide, by decide⟩

/-- Claim C7: the idea list never exceeds the input in length, every
idea record comes from exactly one input entry whose trigger fired and
carries the verbatim transcript of that entry as task_text, and idea records
keep the relative order of their source entries. -/
theorem claim_C7 (es : List VoiceEntry) :
    (processEntries es).ideas.length ≤ es.length
  ∧ (∀ r ∈ (processEntries es).ideas,
      ∃ e ∈ es, entryTrigger e = true ∧ r = ideaOf e ∧ r.task_text = e.transcript_user)
  ∧ ((processEntries es).ideas.map IdeaRecord.task_text).Sublist
      (es.map VoiceEntry.transcript_user) := by
  refine ⟨?_, ?_, ?_⟩
  · rw [ideas_spec, List.length_map]
    exact List.length_filter_le _ es
  · intro r hr
    rw [ideas_spec] at hr
    simp only [List.mem_map, List.mem_filter] at hr
    obtain ⟨e, ⟨he, ht⟩, rfl⟩ := hr
    exact ⟨e, he, ht, rfl, rfl⟩
  · rw [ideas_spec, List.map_map]
    have h1 : (es.filter (fun e => entryTrigger e)).Sublist es := List.filter_sublist es
    have h2 := h1.map VoiceEntry.transcript_user
    have h3 : (IdeaRecord.task_text ∘ ideaOf) = VoiceEntry.transcript_user := rfl
    rw [h3]
    exact h2

/-- Closed instance of claim C7 at a concrete input. -/
theorem claim_C7_witness :
    (processEntries [exPlanned]).ideas.length ≤ 1
  ∧ ((processEntries [exPlanned]).ideas.map IdeaRecord.task_text).Sublist
      ([exPlanned].map VoiceEntry.transcript_user)
  ∧ (ideaOf exPlanned).task_text = exPlanned.transcript_user := by
  obtain ⟨e, he, -, -, h4⟩ :=
    (claim_C7 [exPlanned]).2.1 (ideaOf exPlanned) (by decide)
  refine ⟨(claim_C7 [exPlanned]).1, (claim_C7 [exPlanned]).2.2, ?_⟩
  have hee : e = exPlanned := by simpa using he
  rw [h4, hee]

/-- Claim C2: the tag-frequency map sends every tag to its total number
of occurrences across all entries (duplicates each counted), has exactly
the tags that occur somewhere as keys, is invariant under permuting the
input, and yields the documented counts on the two-entry example. -/
theorem claim_C2 :
    (∀ (es : List VoiceEntry) (t : String),
        lookupTag (processEntries es).tagFrequencies t = occCount t (joinTags es))
  ∧ (∀ (es : List VoiceEntry) (t : String),
        t ∈ keysOf (processEntries es).tagFrequencies ↔ t ∈ joinTags es)
  ∧ (∀ es₁ es₂ : List VoiceEntry, es₁.Perm es₂ → ∀ t : String,
        lookupTag (processEntries es₁).tagFrequencies t
          = lookupTag (processEntries es₂).tagFrequencies t)
  ∧ (processEntries [exTagA, exTagB]).tagFrequencies
      = [("work", 2), ("important", 1), ("personal", 1)] := by
  refine ⟨lookup_process, keys_process, ?_, by decide⟩
  intro es₁ es₂ h t
  rw [lookup_process, lookup_process]
  exact occCount_perm t (joinTags_perm h)

/-- Closed instance of claim C2: permuting the two example entries does
not change the count looked up for "work". -/
theorem claim_C2_witness :
    lookupTag (processEntries [exTagA, exTagB]).tagFrequencies "work"
      = lookupTag (processEntries [exTagB, exTagA]).tagFrequencies "work" :=
  claim_C2.2.2.1 [exTagA, exTagB] [exTagB, exTagA] (by decide) "work"

/-- Claim C4: the category of an idea record is decided by the fixed
keyword sets in the order health, learning, work, personal, first match
winning, with default "general", and the example transcript matching
both learning and work keywords resolves to "learning". -/
theorem claim_C4 (e : VoiceEntry) :
    (matchesAny (lowerStr e.transcript_user) ["health", "exercise", "workout", "diet"] = true →
        (ideaOf e).category = "health")
  ∧ (matchesAny (lowerStr e.transcript_user) ["health", "exercise", "workout", "diet"] = false →
     matchesAny (lowerStr e.transcript_user) ["learn", "study", "course", "read"] = true →
        (ideaOf e).category = "learning")
  ∧ (matchesAny (lowerStr e.transcript_user) ["health", "exercise", "workout", "diet"] = false →
     matchesAny (lowerStr e.transcript_user) ["learn", "study", "course", "read"] = false →
     matchesAny (lowerStr e.transcript_user) ["work", "job", "career", "business"] = true →
        (ideaOf e).category = "work")
  ∧ (matchesAny (lowerStr e.transcript_user) ["health", "exercise", "workout", "diet"] = false →
     matchesAny (lowerStr e.transcript_user) ["learn", "study", "course", "read"] = false →
     matchesAny (lowerStr e.transcript_user) ["work", "job", "career", "business"] = false →
     matchesAny (lowerStr e.transcript_user) ["personal", "life", "relationship"] = true →
        (ideaOf e).category = "personal")
  ∧ (matchesAny (lowerStr e.transcript_user) ["health", "exercise", "workout", "diet"] = false →
     matchesAny (lowerStr e.transcript_user) ["learn", "study", "course", "read"] = false →
     matchesAny (lowerStr e.transcript_user) ["work", "job", "career", "business"] = false →
     matchesAny (lowerStr e.transcript_user) ["personal", "life", "relationship"] = false →
        (ideaOf e).category = "general")
  ∧ (processEntries [exLearn]).ideas.map IdeaRecord.category = ["learning"] := by
  refine ⟨?_, ?_, ?_, ?_, ?_, by decide⟩ <;>
    · intros
      simp_all [ideaOf, categoryOf, entryText]

/-- Closed instance of claim C4: the learning branch fires on the
example transcript once the health keywords have failed. -/
theorem claim_C4_witness : (ideaOf exLearn).category = "learning" :=
  (claim_C4 exLearn).2.1 (by decide) (by decide)

/-- Claim C5: the origin_type of an idea record is "spontaneous" exactly when
the phrase trigger fired on the lower-cased transcript and "planned"
otherwise, regardless of the verb and future-intent triggers; the two
example transcripts give "planned" and "spontaneous" respectively. -/
theorem claim_C5 (e : VoiceEntry) :
    ((ideaOf e).origin_type = "spontaneous"
        ↔ matchesAny (lowerStr e.transcript_user) ideaPhrases = true)
  ∧ ((ideaOf e).origin_type = "planned"
        ↔ matchesAny (lowerStr e.transcript_user) ideaPhrases = false)
  ∧ (processEntries [exPlanned]).ideas.map IdeaRecord.origin_type = ["planned"]
  ∧ (processEntries [exSpont]).ideas.map IdeaRecord.origin_type = ["spontaneous"] := by
  refine ⟨?_, ?_, by decide, by decide⟩ <;>
    · cases h : matchesAny (lowerStr e.transcript_user) ideaPhrases <;>
        simp_all [ideaOf, hasIdeaPhrases, entryText]

/-- Closed instance of claim C5 at the phrase-trigger example. -/
theorem claim_C5_witness : (ideaOf exSpont).origin_type = "spontaneous" :=
  (claim_C5 exSpont).1.mpr (by decide)

/-- Claim C6: tone is "positive" exactly for a present score strictly
above 3/10, "negative" for a present score strictly below -1/10, and
"neutral" otherwise, including at the two boundaries and for an absent
score. -/
theorem claim_C6 (e : VoiceEntry) (s : ℚ) :
    (e.emotion_score_score = some s → 3/10 < s → (ideaOf e).tone = "positive")
  ∧ (e.emotion_score_score = some s → s < -(1/10) → (ideaOf e).tone = "negative")
  ∧ (e.emotion_score_score = some s → -(1/10) ≤ s → s ≤ 3/10 → (ideaOf e).tone = "neutral")
  ∧ (e.emotion_score_score = none → (ideaOf e).tone = "neutral")
  ∧ (ideaOf ⟨"I want to build an app", [], some (3/10), ""⟩).tone = "neutral"
  ∧ (ideaOf ⟨"I want to build an app", [], some (-(1/10)), ""⟩).tone = "neutral" := by
  refine ⟨?_, ?_, ?_, ?_, ?_, ?_⟩
  · intro h hs
    simp [ideaOf, toneOf, h, hs]
  · intro h hs
    have hns : ¬(3/10 : ℚ) < s := by linarith
    show toneOf e.emotion_score_score = "negative"
    rw [h]
    show (if s > 3/10 then "positive" else if s < -(1/10) then "negative" else "neutral")
      = "negative"
    rw [if_neg hns, if_pos hs]
  · intro h hlo hhi
    have hns : ¬(3/10 : ℚ) < s := not_lt.mpr hhi
    have hnn : ¬s < -(1/10 : ℚ) := not_lt.mpr hlo
    show toneOf e.emotion_score_score = "neutral"
    rw [h]
    show (if s > 3/10 then "positive" else if s < -(1/10) then "negative" else "neutral")
      = "neutral"
    rw [if_neg hns, if_neg hnn]
  · intro h
    simp [ideaOf, toneOf, h]
  · simp [ideaOf, toneOf]
    norm_num
  · simp [ideaOf, toneOf]
    norm_num

/-- Closed instance of claim C6 at an absent emotion score. -/
theorem claim_C6_witness :
    (ideaOf ⟨"I want to build an app", [], none, ""⟩).tone = "neutral" :=
  (claim_C6 ⟨"I want to build an app", [], none, ""⟩ 0).2.2.2.1 rfl

/-- Every status value is one of the three documented strings. -/
lemma statusOf_mem (t : String) :
    statusOf t ∈ (["new", "in progress", "completed"] : List String) := by
  unfold statusOf
  split_ifs <;> simp

/-- Every category value is one of the five documented strings. -/
lemma categoryOf_mem (t : String) :
    categoryOf t ∈ (["general", "health", "learning", "work", "personal"] : List String) := by
  unfold categoryOf
  split_ifs <;> simp

/-- Every due-date value is absent or one of the three documented strings. -/
lemma dueDateOf_mem (t : String) :
    dueDateOf t ∈ ([none, some "tomorrow", some "next week", some "this weekend"] :
      List (Option String)) := by
  unfold dueDateOf
  split_ifs <;> simp

/-- Every tone value is one of the three documented strings. -/
lemma toneOf_mem (o : Option ℚ) :
    toneOf o ∈ (["positive", "neutral", "negative"] : List String) := by
  cases o with
  | none => simp [toneOf]
  | some s =>
      simp only [toneOf]
      split_ifs <;> simp

/-- Every refinement value is one of the three documented strings. -/
lemma refinementOf_mem (t : String) :
    refinementOf t ∈ (["initial", "detailed", "conceptual"] : List String) := by
  unfold refinementOf
  split_ifs <;> simp

/-- Every belief value is one of the three documented strings. -/
lemma beliefOf_mem (t : String) :
    beliefOf t ∈ (["medium", "high", "low"] : List String) := by
  unfold beliefOf
  split_ifs <;> simp

/-- Claim C8: the classifier is total over its input type — it is a
plain function in the embedding — and every idea record it emits is
well formed: each attribute is one of its documented values, the
defaults included, for any input shape (empty list, empty tag lists,
absent emotion score included). -/
theorem claim_C8 (es : List VoiceEntry) (r : IdeaRecord)
    (hr : r ∈ (processEntries es).ideas) :
    r.status ∈ (["new", "in progress", "completed"] : List String)
  ∧ r.category ∈ (["general", "health", "learning", "work", "personal"] : List String)
  ∧ r.due_date ∈ ([none, some "tomorrow", some "next week", some "this weekend"] :
      List (Option String))
  ∧ r.origin_type ∈ (["spontaneous", "planned"] : List String)
  ∧ r.tone ∈ (["positive", "neutral", "negative"] : List String)
  ∧ r.refinement_level ∈ (["initial", "detailed", "conceptual"] : List String)
  ∧ r.belief_level ∈ (["medium", "high", "low"] : List String) := by
  rw [ideas_spec] at hr
  simp only [List.mem_map, List.mem_filter] at hr
  obtain ⟨e, -, rfl⟩ := hr
  refine ⟨statusOf_mem _, categoryOf_mem _, dueDateOf_mem _, ?_, toneOf_mem _,
    refinementOf_mem _, beliefOf_mem _⟩
  show (if hasIdeaPhrases (entryText e) then "spontaneous" else "planned") ∈ _
  split_ifs <;> simp

/-- Closed instance of claim C8 at an entry with an empty tag list and
an absent emotion score. -/
theorem claim_C8_witness :
    (ideaOf exPlanned).status ∈ (["new", "in progress", "completed"] : List String)
  ∧ (ideaOf exPlanned).category ∈ (["general", "health", "learning", "work", "personal"] :
      List String)
  ∧ (ideaOf exPlanned).due_date ∈ ([none, some "tomorrow", some "next week",
      some "this weekend"] : List (Option String))
  ∧ (ideaOf exPlanned).origin_type ∈ (["spontaneous", "planned"] : List String)
  ∧ (ideaOf exPlanned).tone ∈ (["positive", "neutral", "negative"] : List String)
  ∧ (ideaOf exPlanned).refinement_level ∈ (["initial", "detailed", "conceptual"] : List String)
  ∧ (ideaOf exPlanned).belief_level ∈ (["medium", "high", "low"] : List String) :=
  claim_C8 [exPlanned] (ideaOf exPlanned) (by decide)

/-- One loop step is unchanged when an entry is replaced by another that
agrees on the three fields the classifier reads. -/
lemma stepEntry_congr {a b : VoiceEntry} (h1 : a.transcript_user = b.transcript_user)
    (h2 : a.tags_user = b.tags_user) (h3 : a.emotion_score_score = b.emotion_score_score)
    (acc : List (String × Nat) × List IdeaRecord) :
    stepEntry acc a = stepEntry acc b := by
  have hci : classifyEntry a = classifyEntry b := by
    simp [classifyEntry, entryTrigger, entryText, ideaOf, h1, h3]
  simp only [stepEntry, hci, h2]

/-- Claim C9: the classifier is deterministic and reads only the
transcript, the tag list and the emotion score of each entry — two
inputs agreeing pairwise on those three fields give structurally
identical results, and calling it twice on one input trivially does. -/
theorem claim_C9 :
    (∀ es : List VoiceEntry, processEntries es = processEntries es)
  ∧ (∀ es₁ es₂ : List VoiceEntry,
      List.Forall₂ (fun a b => a.transcript_user = b.transcript_user
        ∧ a.tags_user = b.tags_user
        ∧ a.emotion_score_score = b.emotion_score_score) es₁ es₂ →
      processEntries es₁ = processEntries es₂) := by
  refine ⟨fun es => rfl, ?_⟩
  intro es₁ es₂ h
  have hfold : ∀ acc, es₁.foldl stepEntry acc = es₂.foldl stepEntry acc := by
    induction h with
    | nil => intro acc; rfl
    | cons hab hrest ih =>
        intro acc
        rw [List.foldl_cons, List.foldl_cons, stepEntry_congr hab.1 hab.2.1 hab.2.2 acc]
        exact ih _
  have hlen : es₁.length = es₂.length := h.length_eq
  simp only [processEntries, hfold ([], []), hlen]

/-- Closed instance of claim C9: two singleton inputs that differ only
in the unread fields give identical results. -/
theorem claim_C9_witness :
    processEntries [⟨"I want to build a new app", ["tag"], none, "record-1"⟩]
      = processEntries [⟨"I want to build a new app", ["tag"], none, "record-2"⟩] :=
  claim_C9.2 _ _ (.cons ⟨rfl, rfl, rfl⟩ .nil)

/-- A pattern of the list that occurs in the text makes `matchesAny` true. -/
lemma matchesAny_of_mem {text p : String} {pats : List String}
    (hp : p ∈ pats) (h : containsSub text p = true) : matchesAny text pats = true := by
  simp only [matchesAny, List.any_eq_true]
  exact ⟨p, hp, h⟩

/-- Counterexample to claim C10 as stated: this transcript contains
"thinking about" (case-insensitively), is classified as an idea, yet its
refinement_level is "detailed", not "conceptual", because the
detailed-keyword check runs first and "steps to" also occurs. -/
theorem claim_C10_counterexample :
    containsSub (lowerStr exC10.transcript_user) "thinking about" = true
  ∧ (processEntries [exC10]).ideas.map IdeaRecord.refinement_level = ["detailed"]
  ∧ (processEntries [exC10]).ideas.map IdeaRecord.refinement_level ≠ ["conceptual"] :=
  ⟨by decide, by decide, by decide⟩

/-- Claim C10, amended: an entry whose transcript contains "thinking
about" (case-insensitively) is always classified as an idea with
origin_type "spontaneous"; its refinement_level is "conceptual" provided
none of the higher-priority detailed keywords ("detailed plan",
"steps to", "process for") also occur, and "detailed" when one does. -/
theorem claim_C10 (e : VoiceEntry)
    (h : containsSub (lowerStr e.transcript_user) "thinking about" = true) :
    entryTrigger e = true
  ∧ classifyEntry e = some (ideaOf e)
  ∧ (ideaOf e).origin_type = "spontaneous"
  ∧ (matchesAny (lowerStr e.transcript_user) ["detailed plan", "steps to", "process for"]
        = false →
      (ideaOf e).refinement_level = "conceptual")
  ∧ (matchesAny (lowerStr e.transcript_user) ["detailed plan", "steps to", "process for"]
        = true →
      (ideaOf e).refinement_level = "detailed") := by
  have hp : matchesAny (lowerStr e.transcript_user) ideaPhrases = true :=
    matchesAny_of_mem (by decide) h
  have htrig : entryTrigger e = true := by
    simp [entryTrigger, hasIdeaPhrases, entryText, hp]
  refine ⟨htrig, by simp [classifyEntry, htrig], ?_, ?_, ?_⟩
  · simp [ideaOf, hasIdeaPhrases, entryText, hp]
  · intro hdet
    have hc : matchesAny (lowerStr e.transcript_user) ["thinking about", "considering"]
        = true :=
      matchesAny_of_mem (by decide) h
    simp [ideaOf, refinementOf, entryText, hdet, hc]
  · intro hdet
    simp [ideaOf, refinementOf, entryText, hdet]

/-- Closed instance of the amended claim C10 at a transcript containing
"thinking about" and no detailed keyword. -/
theorem claim_C10_witness :
    entryTrigger exC10b = true
  ∧ (ideaOf exC10b).origin_type = "spontaneous"
  ∧ (ideaOf exC10b).refinement_level = "conceptual" := by
  obtain ⟨h1, -, h3, h4, -⟩ := claim_C10 exC10b (by decide)
  exact ⟨h1, h3, h4 (by decide)⟩
